import Mathlib

/-
Verification of the aws-ip-provisioner command (src/aws-ip-provisioner/src/command.rs).

The program is a single top-level procedure `execute` that
  1. loads the AWS config and resolves the local EC2 instance id,
  2. sleeps a random number of seconds drawn as random u32 modulo the
     configured maximum (skipped when the maximum, or the drawn value, is 0),
  3. loads the EIP record from the mounted file if it exists, otherwise
     allocates a fresh EIP with the configured tags,
  4. unconditionally syncs the record back to the mounted file,
  5. describes the EIPs associated with the instance and scans them for an
     entry whose allocation id (an optional field, unwrapped — a panic
     hazard) equals the record's allocation id,
  6. associates the record's allocation id with the instance iff no match
     was found (also when the describe result was empty).

All external collaborators (the aws-manager crate, the random source, the
file system) are modelled as an oracle environment `Env` holding the reply
each call would return; the side-effecting calls the run performs are
recorded in order as an `Event` trace, and the record durably written by a
successful sync is reported separately.
-/

namespace AwsIpProvisioner

/-- Elastic IP record stored in the mounted EIP file (the ec2::Eip value of
the aws-manager collaborator): the provider-assigned allocation id plus the
address value. -/
structure Eip where
  allocation_id : String
  public_ip : String
deriving DecidableEq, Repr

/-- One address entry returned by describe-addresses-by-instance; the SDK
exposes the allocation id and the address value as optional fields. -/
structure Address where
  allocation_id : Option String
  public_ip : Option String
deriving DecidableEq, Repr

/-- Error value of an aws-manager API call: a message plus the retryable
hint surfaced by the provider. -/
structure AwsErr where
  message : String
  is_retryable : Bool
deriving DecidableEq, Repr

/-- Flag options of the command (struct Flags in command.rs). -/
structure Flags where
  log_level : String
  initial_wait_random_seconds : Nat
  id_tag_key : String
  id_tag_value : String
  kind_tag_key : String
  kind_tag_value : String
  mounted_eip_file_path : String
deriving DecidableEq, Repr

/-- Oracle environment: the reply each external call would return during
this run.  A field is consulted only if the run actually reaches the
corresponding call. -/
structure Env where
  loadConfigResult : Except String Unit
  fetchInstanceIdResult : Except String String
  randomU32 : Nat
  fileExists : Bool
  loadResult : Except String Eip
  allocResult : Except AwsErr Eip
  syncResult : Except String Unit
  describeResult : Except AwsErr (List Address)
  associateResult : Except AwsErr String
deriving Repr

/-- A side-effecting external call performed by the run, recorded in the
order the calls are issued. -/
inductive Event where
  | sleep (sec : Nat)
  | allocate (idTagKey idTagValue kindTagKey kindTagValue : String)
  | persist (path : String) (rec : Eip)
  | describe (instanceId : String)
  | associate (allocationId instanceId : String)
deriving DecidableEq, Repr

/-- How the run ended: success, a reported io error, or a panic (the
unwrap of a missing allocation id aborts the process instead of returning
an error). -/
inductive Outcome where
  | ok
  | err (msg : String)
  | panicked (msg : String)
deriving DecidableEq, Repr

/-- Result of one run: the outcome, the ordered trace of external calls,
and the record durably written by a successful sync (none when the sync
was never reached or failed). -/
structure RunResult where
  outcome : Outcome
  events : List Event
  written : Option Eip
deriving DecidableEq, Repr

/-- The one allocate-eip call the run can make, carrying the four tag
arguments from the flags (command.rs lines 157-164). -/
def allocateEvent (opts : Flags) : Event :=
  Event.allocate opts.id_tag_key opts.id_tag_value opts.kind_tag_key opts.kind_tag_value

/-- The for-loop of command.rs lines 203-212: scan the describe result in
order; unwrap each inspected entry's allocation id (none = panic, modelled
as Option.none), stop with true at the first entry equal to the own
record's allocation id, and end with false when no entry matched. -/
def scanFound (eips : List Address) (ownAllocId : String) : Option Bool :=
  match eips with
  | [] => some false
  | ev :: rest =>
    match ev.allocation_id with
    | none => none
    | some allocationId =>
      if allocationId = ownAllocId then some true else scanFound rest ownAllocId

/-- Same scan on the bare list of optional allocation ids; used to show the
scan reads nothing but the allocation_id field of each entry. -/
def scanIds (ids : List (Option String)) (ownAllocId : String) : Option Bool :=
  match ids with
  | [] => some false
  | none :: _ => none
  | some allocationId :: rest =>
      if allocationId = ownAllocId then some true else scanIds rest ownAllocId

/-- The load-or-allocate step of command.rs lines 148-175: when the
mounted EIP file exists, load it (an unparsable file is a terminal error,
the allocator is never consulted); otherwise issue one allocate-eip call
with the four configured tags.  Returns the obtained record or the error,
together with the external calls issued by this step. -/
def obtainEip (opts : Flags) (env : Env) : Except String Eip × List Event :=
  if env.fileExists then
    match env.loadResult with
    | .error e => (.error ("failed ec2::Eip::load " ++ e), [])
    | .ok eip => (.ok eip, [])
  else
    match env.allocResult with
    | .error e =>
        (.error ("failed ec2_manager.allocate_eip " ++ e.message ++ " (retryable "
                  ++ toString e.is_retryable ++ ")"),
         [allocateEvent opts])
    | .ok eip => (.ok eip, [allocateEvent opts])

/-- The jitter step of command.rs lines 131-141: the sleep duration is
random u32 modulo the configured maximum when the maximum is positive, and
the sleep call is issued only when the duration is positive. -/
def sleepEvents (opts : Flags) (env : Env) : List Event :=
  let sleep_sec := if 0 < opts.initial_wait_random_seconds then
      env.randomU32 % opts.initial_wait_random_seconds
    else 0
  if 0 < sleep_sec then [Event.sleep sleep_sec] else []

/-- The reconciliation step of command.rs lines 182-229: describe the EIPs
of the instance (terminal error on failure); an empty result, or a scan
that finds no entry matching the own record's allocation id, triggers one
associate call with the own record's allocation id and the instance id; a
found match means already associated and no associate call; a missing
allocation id in an inspected entry panics. -/
def reconcile (env : Env) (instanceId : String) (eip : Eip) : Outcome × List Event :=
  match env.describeResult with
  | .error e =>
      (.err ("failed ec2_manager.describe_eips_by_instance_id " ++ e.message
              ++ " (retryable " ++ toString e.is_retryable ++ ")"),
       [Event.describe instanceId])
  | .ok eips =>
      let found? := if eips.isEmpty then some false else scanFound eips eip.allocation_id
      match found? with
      | none =>
          (.panicked "called Option unwrap on a None value", [Event.describe instanceId])
      | some found =>
          if !found then
            match env.associateResult with
            | .error e =>
                (.err ("failed ec2_manager.associate_eip " ++ e.message
                        ++ " (retryable " ++ toString e.is_retryable ++ ")"),
                 [Event.describe instanceId, Event.associate eip.allocation_id instanceId])
            | .ok _ =>
                (.ok, [Event.describe instanceId, Event.associate eip.allocation_id instanceId])
          else
            (.ok, [Event.describe instanceId])

/-- The whole run (command.rs execute, lines 112-233): resolve identity,
jitter, load-or-allocate, unconditional sync, reconcile.  Every failure
returns immediately with the step's error; no call is retried. -/
def execute (opts : Flags) (env : Env) : RunResult :=
  match env.loadConfigResult with
  | .error e => { outcome := .err e, events := [], written := none }
  | .ok _ =>
    match env.fetchInstanceIdResult with
    | .error e =>
        { outcome := .err ("failed fetch_instance_id " ++ e), events := [], written := none }
    | .ok ec2_instance_id =>
        match obtainEip opts env with
        | (.error e, evs) =>
            { outcome := .err e, events := sleepEvents opts env ++ evs, written := none }
        | (.ok eip, evs) =>
            let evs1 := sleepEvents opts env ++ evs
              ++ [Event.persist opts.mounted_eip_file_path eip]
            match env.syncResult with
            | .error e => { outcome := .err e, events := evs1, written := none }
            | .ok _ =>
                let rr := reconcile env ec2_instance_id eip
                { outcome := rr.1, events := evs1 ++ rr.2, written := some eip }

/-- Recognizer for sleep events. -/
def isSleepEvent : Event → Bool
  | .sleep _ => true
  | _ => false

/-- Recognizer for allocate-eip events. -/
def isAllocateEvent : Event → Bool
  | .allocate _ _ _ _ => true
  | _ => false

/-- Recognizer for sync (persist) events. -/
def isPersistEvent : Event → Bool
  | .persist _ _ => true
  | _ => false

/-- Recognizer for describe-eips events. -/
def isDescribeEvent : Event → Bool
  | .describe _ => true
  | _ => false

/-- Recognizer for associate-eip events. -/
def isAssociateEvent : Event → Bool
  | .associate _ _ => true
  | _ => false

/-- The allocate-eip calls a run issued, in order. -/
def allocateCalls (r : RunResult) : List Event := r.events.filter isAllocateEvent

/-- The associate-eip calls a run issued, in order. -/
def associateCalls (r : RunResult) : List Event := r.events.filter isAssociateEvent

/-- The sync (persist) calls a run issued, in order. -/
def persistCalls (r : RunResult) : List Event := r.events.filter isPersistEvent

/-- The describe-eips calls a run issued, in order. -/
def describeCalls (r : RunResult) : List Event := r.events.filter isDescribeEvent

/-- The sleep calls a run issued, in order. -/
def sleepCalls (r : RunResult) : List Event := r.events.filter isSleepEvent

/-! ### Helper lemmas about the scan -/

/-- The scan reads nothing but the allocation_id field of each entry. -/
lemma scanFound_eq_scanIds (l : List Address) (own : String) :
    scanFound l own = scanIds (l.map Address.allocation_id) own := by
  induction l with
  | nil => rfl
  | cons a rest ih =>
    cases h : a.allocation_id with
    | none => simp [scanFound, scanIds, h]
    | some s => simp [scanFound, scanIds, h, ih]

/-- When every entry carries an allocation id, the scan never panics and
decides exactly membership of the own allocation id among the entries. -/
lemma scanFound_eq_decide_mem (l : List Address) (own : String)
    (h : ∀ a ∈ l, (a.allocation_id).isSome = true) :
    scanFound l own = some (decide ((some own) ∈ l.map Address.allocation_id)) := by
  induction l with
  | nil => simp [scanFound]
  | cons a rest ih =>
    cases hs : a.allocation_id with
    | none =>
        have := h a (List.mem_cons_self a rest)
        rw [hs] at this
        simp at this
    | some s =>
        by_cases hso : s = own
        · subst hso
          simp [scanFound, hs]
        · have hrest := ih (fun b hb => h b (List.mem_cons_of_mem a hb))
          have h1 : scanFound (a :: rest) own = scanFound rest own := by
            simp [scanFound, hs, hso]
          have h2 : ((some own) ∈ (a :: rest).map Address.allocation_id) ↔
              ((some own) ∈ rest.map Address.allocation_id) := by
            simp only [List.map_cons, List.mem_cons, hs]
            constructor
            · rintro (hh | hh)
              · exact absurd (Option.some.inj hh) (fun he => hso he.symm)
              · exact hh
            · exact Or.inr
          rw [h1, hrest]
          exact congrArg some (decide_eq_decide.mpr h2.symm)

/-- An entry with a missing allocation id, inspected before any matching
entry, makes the scan panic. -/
lemma scanFound_append_none (pre rest : List Address) (a : Address) (own : String)
    (ha : a.allocation_id = none)
    (hpre : ∀ b ∈ pre, ∃ s, b.allocation_id = some s ∧ s ≠ own) :
    scanFound (pre ++ a :: rest) own = none := by
  induction pre with
  | nil => simp [scanFound, ha]
  | cons b pre ih =>
    obtain ⟨s, hs, hne⟩ := hpre b (List.mem_cons_self b pre)
    have htail := ih (fun c hc => hpre c (List.mem_cons_of_mem b hc))
    simp [scanFound, hs, hne, htail]

/-! ### Helper lemmas about the individual steps' event lists -/

/-- The jitter step can only emit sleep events. -/
lemma sleepEvents_filter (opts : Flags) (env : Env) (p : Event → Bool)
    (hp : ∀ s, p (Event.sleep s) = false) : (sleepEvents opts env).filter p = [] := by
  simp only [sleepEvents]
  split <;> simp [hp]

/-- The jitter step's events are all sleep events. -/
lemma sleepEvents_filter_sleep (opts : Flags) (env : Env) :
    (sleepEvents opts env).filter isSleepEvent = sleepEvents opts env := by
  simp only [sleepEvents]
  split <;> simp [isSleepEvent]

/-- The jitter step emits no sleep call when the configured maximum is 0. -/
lemma sleepEvents_of_zero (opts : Flags) (env : Env)
    (h : opts.initial_wait_random_seconds = 0) : sleepEvents opts env = [] := by
  simp [sleepEvents, h]

/-- The load-or-allocate step can only emit allocate events. -/
lemma obtainEip_snd_filter (opts : Flags) (env : Env) (p : Event → Bool)
    (hp : ∀ a b c d, p (Event.allocate a b c d) = false) :
    ((obtainEip opts env).2).filter p = [] := by
  simp only [obtainEip]
  split
  · cases env.loadResult <;> simp
  · cases env.allocResult <;> simp [allocateEvent, hp]

/-- When the mounted file exists, the load-or-allocate step emits no
external call at all (in particular, no allocate call). -/
lemma obtainEip_snd_of_fileExists (opts : Flags) (env : Env)
    (h : env.fileExists = true) : (obtainEip opts env).2 = [] := by
  simp only [obtainEip, h, if_true]
  cases env.loadResult <;> simp

/-- When the mounted file exists, the load-or-allocate step returns
exactly the load result. -/
lemma obtainEip_of_fileExists_ok (opts : Flags) (env : Env) (rec : Eip)
    (h : env.fileExists = true) (hl : env.loadResult = .ok rec) :
    obtainEip opts env = (.ok rec, []) := by
  simp [obtainEip, h, hl]

/-- The load-or-allocate step issues at most one external call. -/
lemma obtainEip_snd_length (opts : Flags) (env : Env) :
    ((obtainEip opts env).2).length ≤ 1 := by
  simp only [obtainEip]
  split
  · cases env.loadResult <;> simp
  · cases env.allocResult <;> simp

/-- The reconciliation step emits either just the describe call, or the
describe call followed by one associate call with the own record's
allocation id. -/
lemma reconcile_snd_cases (env : Env) (instanceId : String) (eip : Eip) :
    (reconcile env instanceId eip).2 = [Event.describe instanceId] ∨
    (reconcile env instanceId eip).2 =
      [Event.describe instanceId, Event.associate eip.allocation_id instanceId] := by
  simp only [reconcile]
  cases env.describeResult with
  | error e => simp
  | ok eips =>
    cases eips with
    | nil =>
        cases env.associateResult <;> simp
    | cons a rest =>
        rcases h : scanFound (a :: rest) eip.allocation_id with _ | found
        · simp [h]
        · cases found with
          | false => cases env.associateResult <;> simp [h]
          | true => simp [h]

/-- The reconciliation step emits no event other than describe and
associate calls. -/
lemma reconcile_snd_filter (env : Env) (instanceId : String) (eip : Eip)
    (p : Event → Bool)
    (h1 : ∀ i, p (Event.describe i) = false)
    (h2 : ∀ a i, p (Event.associate a i) = false) :
    ((reconcile env instanceId eip).2).filter p = [] := by
  rcases reconcile_snd_cases env instanceId eip with h | h <;> simp [h, h1, h2]

/-- When the describe result is empty, the reconciliation step issues
exactly one associate call, carrying the own record's allocation id and the
instance id, whatever the associate call then returns. -/
lemma reconcile_of_empty (env : Env) (instanceId : String) (eip : Eip)
    (hd : env.describeResult = .ok []) :
    (reconcile env instanceId eip).2 =
      [Event.describe instanceId, Event.associate eip.allocation_id instanceId] := by
  simp only [reconcile, hd]
  cases env.associateResult <;> simp

/-- When some entry of the describe result matches the own record's
allocation id and every entry carries an allocation id, the reconciliation
step reports success and issues no associate call. -/
lemma reconcile_of_found (env : Env) (instanceId : String) (eip : Eip)
    (eips : List Address)
    (hd : env.describeResult = .ok eips)
    (hsome : ∀ a ∈ eips, (a.allocation_id).isSome = true)
    (hmem : (some eip.allocation_id) ∈ eips.map Address.allocation_id) :
    reconcile env instanceId eip = (.ok, [Event.describe instanceId]) := by
  have hne : eips ≠ [] := by
    intro h
    rw [h] at hmem
    simp at hmem
  have hsf := scanFound_eq_decide_mem eips eip.allocation_id hsome
  rw [decide_eq_true hmem] at hsf
  simp [reconcile, hd, List.isEmpty_iff, hne, hsf]

/-- When some entry of the describe result has a missing allocation id and
is inspected before any matching entry, the reconciliation step panics. -/
lemma reconcile_of_scan_none (env : Env) (instanceId : String) (eip : Eip)
    (eips : List Address)
    (hd : env.describeResult = .ok eips) (hne : eips ≠ [])
    (hsf : scanFound eips eip.allocation_id = none) :
    reconcile env instanceId eip =
      (.panicked "called Option unwrap on a None value", [Event.describe instanceId]) := by
  simp [reconcile, hd, List.isEmpty_iff, hne, hsf]

/-- When the describe call fails, the reconciliation step stops with that
error after the describe call, issuing no associate call. -/
lemma reconcile_of_describe_error (env : Env) (instanceId : String) (eip : Eip)
    (e : AwsErr) (hd : env.describeResult = .error e) :
    reconcile env instanceId eip =
      (.err ("failed ec2_manager.describe_eips_by_instance_id " ++ e.message
              ++ " (retryable " ++ toString e.is_retryable ++ ")"),
       [Event.describe instanceId]) := by
  simp [reconcile, hd]

/-- When the reconciliation step issued an associate call and the associate
call fails, the step's outcome is that error. -/
lemma reconcile_assoc_error (env : Env) (instanceId : String) (eip : Eip)
    (e : AwsErr) (a i : String)
    (he : env.associateResult = .error e)
    (hmem : Event.associate a i ∈ (reconcile env instanceId eip).2) :
    (reconcile env instanceId eip).1 =
      .err ("failed ec2_manager.associate_eip " ++ e.message
             ++ " (retryable " ++ toString e.is_retryable ++ ")") := by
  simp only [reconcile] at hmem ⊢
  cases hd : env.describeResult with
  | error e2 => simp [hd] at hmem
  | ok eips =>
    rw [hd] at hmem
    cases eips with
    | nil => simp [he] at hmem ⊢
    | cons b rest =>
      rcases h : scanFound (b :: rest) eip.allocation_id with _ | found
      · simp [h] at hmem
      · cases found with
        | false => simp [h, he] at hmem ⊢
        | true => simp [h] at hmem

/-- When the lookup result is well formed (every entry carries an
allocation id), the reconciliation step never panics. -/
lemma reconcile_no_panic (env : Env) (instanceId : String) (eip : Eip)
    (hwf : ∀ l, env.describeResult = .ok l → ∀ a ∈ l, (a.allocation_id).isSome = true) :
    ∀ m, (reconcile env instanceId eip).1 ≠ .panicked m := by
  intro m
  simp only [reconcile]
  cases hd : env.describeResult with
  | error e => simp
  | ok eips =>
    cases eips with
    | nil => cases env.associateResult <;> simp
    | cons b rest =>
      have hsf := scanFound_eq_decide_mem (b :: rest) eip.allocation_id
        (hwf (b :: rest) hd)
      cases hdec : decide ((some eip.allocation_id) ∈ (b :: rest).map Address.allocation_id) with
      | false =>
          rw [hdec] at hsf
          cases env.associateResult <;> simp [hsf]
      | true =>
          rw [hdec] at hsf
          simp [hsf]

/-! ### Structural lemmas about whole runs -/

/-- A failed config load ends the run at once with that error and no
external call. -/
lemma execute_of_config_error (opts : Flags) (env : Env) (e : String)
    (hc : env.loadConfigResult = .error e) :
    execute opts env = { outcome := .err e, events := [], written := none } := by
  simp [execute, hc]

/-- A failed instance-id fetch ends the run at once with that error and no
external call. -/
lemma execute_of_fetch_error (opts : Flags) (env : Env) (e : String)
    (hc : env.loadConfigResult = .ok ())
    (hf : env.fetchInstanceIdResult = .error e) :
    execute opts env =
      { outcome := .err ("failed fetch_instance_id " ++ e), events := [], written := none } := by
  simp [execute, hc, hf]

/-- A failed load-or-allocate step ends the run with that error: no sync,
no describe, no associate call follows. -/
lemma execute_of_obtain_error (opts : Flags) (env : Env) (iid e : String)
    (evs : List Event)
    (hc : env.loadConfigResult = .ok ())
    (hf : env.fetchInstanceIdResult = .ok iid)
    (ho : obtainEip opts env = (.error e, evs)) :
    execute opts env =
      { outcome := .err e, events := sleepEvents opts env ++ evs, written := none } := by
  simp [execute, hc, hf, ho]

/-- A failed sync ends the run with that error right after the persist
call: no describe, no associate call follows, nothing was written. -/
lemma execute_of_sync_error (opts : Flags) (env : Env) (iid e : String)
    (rec : Eip) (evs : List Event)
    (hc : env.loadConfigResult = .ok ())
    (hf : env.fetchInstanceIdResult = .ok iid)
    (ho : obtainEip opts env = (.ok rec, evs))
    (hs : env.syncResult = .error e) :
    execute opts env =
      { outcome := .err e,
        events := sleepEvents opts env ++ evs
          ++ [Event.persist opts.mounted_eip_file_path rec],
        written := none } := by
  simp [execute, hc, hf, ho, hs]

/-- A run that gets past the sync performs exactly the jitter, the
load-or-allocate calls, the persist call, and then the reconciliation
calls, writes the obtained record, and ends with the reconciliation
outcome. -/
lemma execute_of_sync_ok (opts : Flags) (env : Env) (iid : String)
    (rec : Eip) (evs : List Event)
    (hc : env.loadConfigResult = .ok ())
    (hf : env.fetchInstanceIdResult = .ok iid)
    (ho : obtainEip opts env = (.ok rec, evs))
    (hs : env.syncResult = .ok ()) :
    execute opts env =
      { outcome := (reconcile env iid rec).1,
        events := sleepEvents opts env ++ evs
          ++ [Event.persist opts.mounted_eip_file_path rec]
          ++ (reconcile env iid rec).2,
        written := some rec } := by
  simp [execute, hc, hf, ho, hs]

/-! ### Event-kind filters of the individual steps -/

/-- The jitter step issues no allocate call. -/
lemma sleep_no_allocate (opts : Flags) (env : Env) :
    (sleepEvents opts env).filter isAllocateEvent = [] :=
  sleepEvents_filter opts env isAllocateEvent fun _ => rfl

/-- The jitter step issues no persist call. -/
lemma sleep_no_persist (opts : Flags) (env : Env) :
    (sleepEvents opts env).filter isPersistEvent = [] :=
  sleepEvents_filter opts env isPersistEvent fun _ => rfl

/-- The jitter step issues no describe call. -/
lemma sleep_no_describe (opts : Flags) (env : Env) :
    (sleepEvents opts env).filter isDescribeEvent = [] :=
  sleepEvents_filter opts env isDescribeEvent fun _ => rfl

/-- The jitter step issues no associate call. -/
lemma sleep_no_associate (opts : Flags) (env : Env) :
    (sleepEvents opts env).filter isAssociateEvent = [] :=
  sleepEvents_filter opts env isAssociateEvent fun _ => rfl

/-- The load-or-allocate step issues no persist call. -/
lemma obtain_no_persist (opts : Flags) (env : Env) :
    ((obtainEip opts env).2).filter isPersistEvent = [] :=
  obtainEip_snd_filter opts env isPersistEvent fun _ _ _ _ => rfl

/-- The load-or-allocate step issues no describe call. -/
lemma obtain_no_describe (opts : Flags) (env : Env) :
    ((obtainEip opts env).2).filter isDescribeEvent = [] :=
  obtainEip_snd_filter opts env isDescribeEvent fun _ _ _ _ => rfl

/-- The load-or-allocate step issues no associate call. -/
lemma obtain_no_associate (opts : Flags) (env : Env) :
    ((obtainEip opts env).2).filter isAssociateEvent = [] :=
  obtainEip_snd_filter opts env isAssociateEvent fun _ _ _ _ => rfl

/-- The load-or-allocate step issues no sleep call. -/
lemma obtain_no_sleep (opts : Flags) (env : Env) :
    ((obtainEip opts env).2).filter isSleepEvent = [] :=
  obtainEip_snd_filter opts env isSleepEvent fun _ _ _ _ => rfl

/-- The reconciliation step issues no allocate call. -/
lemma reconcile_no_allocate (env : Env) (instanceId : String) (eip : Eip) :
    ((reconcile env instanceId eip).2).filter isAllocateEvent = [] :=
  reconcile_snd_filter env instanceId eip isAllocateEvent (fun _ => rfl) fun _ _ => rfl

/-- The reconciliation step issues no persist call. -/
lemma reconcile_no_persist (env : Env) (instanceId : String) (eip : Eip) :
    ((reconcile env instanceId eip).2).filter isPersistEvent = [] :=
  reconcile_snd_filter env instanceId eip isPersistEvent (fun _ => rfl) fun _ _ => rfl

/-- The reconciliation step issues no sleep call. -/
lemma reconcile_no_sleep (env : Env) (instanceId : String) (eip : Eip) :
    ((reconcile env instanceId eip).2).filter isSleepEvent = [] :=
  reconcile_snd_filter env instanceId eip isSleepEvent (fun _ => rfl) fun _ _ => rfl

/-- Every event of the jitter step is a sleep event. -/
lemma mem_sleepEvents (opts : Flags) (env : Env) (ev : Event)
    (h : ev ∈ sleepEvents opts env) :
    ev = Event.sleep (env.randomU32 % opts.initial_wait_random_seconds) := by
  simp only [sleepEvents] at h
  by_cases h0 : 0 < opts.initial_wait_random_seconds
  · rw [if_pos h0] at h
    by_cases h1 : 0 < env.randomU32 % opts.initial_wait_random_seconds
    · rw [if_pos h1] at h
      simpa using h
    · rw [if_neg h1] at h
      simp at h
  · rw [if_neg h0] at h
    simp at h

/-- Every event of the load-or-allocate step is the allocate call. -/
lemma mem_obtainEip_snd (opts : Flags) (env : Env) (ev : Event)
    (h : ev ∈ (obtainEip opts env).2) : ev = allocateEvent opts := by
  simp only [obtainEip] at h
  split at h
  · cases hl : env.loadResult with
    | error e => rw [hl] at h; simp at h
    | ok eip => rw [hl] at h; simp at h
  · cases ha : env.allocResult with
    | error e => rw [ha] at h; simpa using h
    | ok eip => rw [ha] at h; simpa using h

/-- Changing the describe reply changes nothing about the load-or-allocate
step. -/
lemma obtainEip_set_describe (opts : Flags) (env : Env)
    (d : Except AwsErr (List Address)) :
    obtainEip opts { env with describeResult := d } = obtainEip opts env := rfl

/-- Changing the describe reply changes nothing about the jitter step. -/
lemma sleepEvents_set_describe (opts : Flags) (env : Env)
    (d : Except AwsErr (List Address)) :
    sleepEvents opts { env with describeResult := d } = sleepEvents opts env := rfl

/-- Overwriting the describe reply with its own value is the identity. -/
lemma env_set_describe_self (env : Env) (l : List Address)
    (hd : env.describeResult = .ok l) :
    { env with describeResult := .ok l } = env := by
  obtain ⟨lc, fid, rnd, fe, lr, ar, sr, dr, asr⟩ := env
  rw [show dr = Except.ok l from hd]

/-- The run's behaviour depends on the describe reply only through its
emptiness and the scan of its allocation ids. -/
lemma execute_congr_scan (opts : Flags) (lc : Except String Unit)
    (fid : Except String String) (rnd : Nat) (fe : Bool)
    (lr : Except String Eip) (ar : Except AwsErr Eip) (sr : Except String Unit)
    (asr : Except AwsErr String) (l₁ l₂ : List Address)
    (hemp : l₁.isEmpty = l₂.isEmpty)
    (hsf : ∀ own, scanFound l₁ own = scanFound l₂ own) :
    execute opts ⟨lc, fid, rnd, fe, lr, ar, sr, .ok l₁, asr⟩ =
    execute opts ⟨lc, fid, rnd, fe, lr, ar, sr, .ok l₂, asr⟩ := by
  cases lc with
  | error e => rfl
  | ok u =>
    cases fid with
    | error e => rfl
    | ok iid =>
      cases fe with
      | true =>
        cases lr with
        | error e => rfl
        | ok rec =>
          cases sr with
          | error e => rfl
          | ok u2 => simp [execute, obtainEip, reconcile, sleepEvents, hemp, hsf]
      | false =>
        cases ar with
        | error e => rfl
        | ok rec =>
          cases sr with
          | error e => rfl
          | ok u2 => simp [execute, obtainEip, reconcile, sleepEvents, hemp, hsf]

/-- Same congruence, stated through an environment update. -/
lemma execute_describe_congr (opts : Flags) (env : Env) (l₁ l₂ : List Address)
    (hemp : l₁.isEmpty = l₂.isEmpty)
    (hsf : ∀ own, scanFound l₁ own = scanFound l₂ own) :
    execute opts { env with describeResult := .ok l₁ } =
    execute opts { env with describeResult := .ok l₂ } := by
  obtain ⟨lc, fid, rnd, fe, lr, ar, sr, dr, asr⟩ := env
  exact execute_congr_scan opts lc fid rnd fe lr ar sr asr l₁ l₂ hemp hsf

/-- The jitter step with a positive maximum: the drawn duration is the
random value modulo the maximum, and the sleep call is skipped when the
drawn duration is 0. -/
lemma sleepEvents_of_pos (opts : Flags) (env : Env)
    (h : 0 < opts.initial_wait_random_seconds) :
    sleepEvents opts env =
      if 0 < env.randomU32 % opts.initial_wait_random_seconds
      then [Event.sleep (env.randomU32 % opts.initial_wait_random_seconds)] else [] := by
  simp [sleepEvents, h]

/-- Once the run gets past identity resolution, its sleep calls are exactly
the jitter step's. -/
lemma execute_sleepCalls (opts : Flags) (env : Env) (iid : String)
    (hc : env.loadConfigResult = .ok ())
    (hf : env.fetchInstanceIdResult = .ok iid) :
    sleepCalls (execute opts env) = sleepEvents opts env := by
  rcases ho : obtainEip opts env with ⟨res, evs⟩
  have hns : evs.filter isSleepEvent = [] := by
    have h := obtain_no_sleep opts env
    rw [ho] at h
    exact h
  cases res with
  | error e =>
      rw [execute_of_obtain_error opts env iid e evs hc hf ho]
      simp [sleepCalls, List.filter_append, sleepEvents_filter_sleep, hns]
  | ok rec =>
      cases hs : env.syncResult with
      | error e =>
          rw [execute_of_sync_error opts env iid e rec evs hc hf ho hs]
          simp [sleepCalls, List.filter_append, sleepEvents_filter_sleep, hns, isSleepEvent]
      | ok u2 =>
          cases u2
          rw [execute_of_sync_ok opts env iid rec evs hc hf ho hs]
          simp [sleepCalls, List.filter_append, sleepEvents_filter_sleep, hns,
            reconcile_no_sleep, isSleepEvent]

/-- Every run issues each kind of external call at most once: there is no
internal retry of any failed call. -/
lemma execute_call_counts (opts : Flags) (env : Env) :
    (allocateCalls (execute opts env)).length ≤ 1 ∧
    (persistCalls (execute opts env)).length ≤ 1 ∧
    (describeCalls (execute opts env)).length ≤ 1 ∧
    (associateCalls (execute opts env)).length ≤ 1 := by
  cases hc : env.loadConfigResult with
  | error e =>
      rw [execute_of_config_error opts env e hc]
      simp [allocateCalls, persistCalls, describeCalls, associateCalls]
  | ok u =>
    cases u
    cases hf : env.fetchInstanceIdResult with
    | error e =>
        rw [execute_of_fetch_error opts env e hc hf]
        simp [allocateCalls, persistCalls, describeCalls, associateCalls]
    | ok iid =>
      rcases ho : obtainEip opts env with ⟨res, evs⟩
      have halloc : (evs.filter isAllocateEvent).length ≤ 1 := by
        have h := obtainEip_snd_length opts env
        rw [ho] at h
        exact le_trans (List.length_filter_le isAllocateEvent evs) h
      have hnp : evs.filter isPersistEvent = [] := by
        have h := obtain_no_persist opts env; rw [ho] at h; exact h
      have hnd : evs.filter isDescribeEvent = [] := by
        have h := obtain_no_describe opts env; rw [ho] at h; exact h
      have hna : evs.filter isAssociateEvent = [] := by
        have h := obtain_no_associate opts env; rw [ho] at h; exact h
      cases res with
      | error e =>
          rw [execute_of_obtain_error opts env iid e evs hc hf ho]
          simp [allocateCalls, persistCalls, describeCalls, associateCalls,
            List.filter_append, sleep_no_allocate, sleep_no_persist,
            sleep_no_describe, sleep_no_associate, hnp, hnd, hna, halloc]
      | ok rec =>
          cases hs : env.syncResult with
          | error e =>
              rw [execute_of_sync_error opts env iid e rec evs hc hf ho hs]
              simp [allocateCalls, persistCalls, describeCalls, associateCalls,
                List.filter_append, sleep_no_allocate, sleep_no_persist,
                sleep_no_describe, sleep_no_associate, hnp, hnd, hna, halloc,
                isAllocateEvent, isPersistEvent, isDescribeEvent, isAssociateEvent]
          | ok u2 =>
              cases u2
              rw [execute_of_sync_ok opts env iid rec evs hc hf ho hs]
              rcases reconcile_snd_cases env iid rec with hr | hr <;>
                simp [allocateCalls, persistCalls, describeCalls, associateCalls,
                  List.filter_append, sleep_no_allocate, sleep_no_persist,
                  sleep_no_describe, sleep_no_associate, hnp, hnd, hna, halloc, hr,
                  isAllocateEvent, isPersistEvent, isDescribeEvent, isAssociateEvent]

/-- When the scan ends without a match, the reconciliation step issues the
associate call with the own record's allocation id. -/
lemma reconcile_of_not_found (env : Env) (instanceId : String) (eip : Eip)
    (l : List Address) (hd : env.describeResult = .ok l)
    (hne : l ≠ []) (hsf : scanFound l eip.allocation_id = some false) :
    (reconcile env instanceId eip).2 =
      [Event.describe instanceId, Event.associate eip.allocation_id instanceId] := by
  simp only [reconcile, hd]
  cases env.associateResult <;> simp [List.isEmpty_iff, hne, hsf]

/-- Under a well-formed describe reply, the reconciliation step issues an
associate call exactly when no entry's allocation id equals the own
record's allocation id. -/
lemma reconcile_assoc_ne_iff (env : Env) (instanceId : String) (eip : Eip)
    (l : List Address) (hd : env.describeResult = .ok l)
    (hsome : ∀ a ∈ l, (a.allocation_id).isSome = true) :
    ((reconcile env instanceId eip).2).filter isAssociateEvent ≠ [] ↔
      (some eip.allocation_id) ∉ l.map Address.allocation_id := by
  cases l with
  | nil =>
      rw [reconcile_of_empty env instanceId eip hd]
      simp [isAssociateEvent]
  | cons b rest =>
      by_cases hmem : (some eip.allocation_id) ∈ ((b :: rest).map Address.allocation_id)
      · rw [reconcile_of_found env instanceId eip (b :: rest) hd hsome hmem]
        exact iff_of_false (by simp [isAssociateEvent]) (not_not_intro hmem)
      · have hsf := scanFound_eq_decide_mem (b :: rest) eip.allocation_id hsome
        rw [decide_eq_false hmem] at hsf
        rw [reconcile_of_not_found env instanceId eip (b :: rest) hd (by simp) hsf]
        exact iff_of_true (by simp [isAssociateEvent]) hmem

/-! ### The claims -/

/-- Claim C1: starting from the state a successful prior run leaves behind
(the record file exists and loads as the persisted record, and the lookup
for the instance reports that record's allocation id among well-formed
entries) and with no external state change, a second full run takes the
already-associated branch: it succeeds, issues no allocate call and no
associate call, and re-writes the same record, leaving the persisted
record unchanged. -/
theorem execute_second_run_already_associated (opts : Flags) (env : Env)
    (iid : String) (rec : Eip) (addrs : List Address)
    (hc : env.loadConfigResult = .ok ())
    (hf : env.fetchInstanceIdResult = .ok iid)
    (hfe : env.fileExists = true)
    (hl : env.loadResult = .ok rec)
    (hs : env.syncResult = .ok ())
    (hd : env.describeResult = .ok addrs)
    (hsome : ∀ a ∈ addrs, (a.allocation_id).isSome = true)
    (hmem : (some rec.allocation_id) ∈ addrs.map Address.allocation_id) :
    (execute opts env).outcome = .ok ∧
    allocateCalls (execute opts env) = [] ∧
    associateCalls (execute opts env) = [] ∧
    (execute opts env).written = some rec := by
  have ho := obtainEip_of_fileExists_ok opts env rec hfe hl
  have hrun := execute_of_sync_ok opts env iid rec [] hc hf ho hs
  have hrec := reconcile_of_found env iid rec addrs hd hsome hmem
  refine ⟨?_, ?_, ?_, ?_⟩ <;>
    simp [hrun, hrec, allocateCalls, associateCalls, List.filter_append,
      sleep_no_allocate, sleep_no_associate, isAllocateEvent, isAssociateEvent]

/-- Claim C2: whenever the local record file exists, the run never invokes
the allocator, whatever the later lookup returns and whether or not the
association succeeds — so at most one address is ever created per instance
while the local record survives. -/
theorem execute_existing_record_never_allocates (opts : Flags) (env : Env)
    (hfe : env.fileExists = true) :
    allocateCalls (execute opts env) = [] := by
  cases hc : env.loadConfigResult with
  | error e => simp [execute_of_config_error opts env e hc, allocateCalls]
  | ok u =>
    cases u
    cases hf : env.fetchInstanceIdResult with
    | error e => simp [execute_of_fetch_error opts env e hc hf, allocateCalls]
    | ok iid =>
      have hsnd := obtainEip_snd_of_fileExists opts env hfe
      rcases h : obtainEip opts env with ⟨res, evs⟩
      rw [h] at hsnd
      subst hsnd
      cases res with
      | error e =>
          rw [execute_of_obtain_error opts env iid e [] hc hf h]
          simp [allocateCalls, List.filter_append, sleep_no_allocate]
      | ok rec =>
          cases hs : env.syncResult with
          | error e =>
              rw [execute_of_sync_error opts env iid e rec [] hc hf h hs]
              simp [allocateCalls, List.filter_append, sleep_no_allocate, isAllocateEvent]
          | ok u2 =>
              cases u2
              rw [execute_of_sync_ok opts env iid rec [] hc hf h hs]
              simp [allocateCalls, List.filter_append, sleep_no_allocate,
                reconcile_no_allocate, isAllocateEvent]

/-- Claim C3: when the lookup reply is a non-empty well-formed set
containing at least one entry whose allocation id equals the own record's
(other entries with different allocation ids may be present, at any
position), reconciliation concludes already-associated: the run succeeds
with no associate call.  The match is decided by allocation id equality
alone: any reply with the same allocation ids entry-for-entry (address
values arbitrary) produces the identical run. -/
theorem execute_reconcile_matches_by_allocation_id (opts : Flags) (env : Env)
    (iid : String) (rec : Eip) (addrs : List Address)
    (hc : env.loadConfigResult = .ok ())
    (hf : env.fetchInstanceIdResult = .ok iid)
    (hfe : env.fileExists = true)
    (hl : env.loadResult = .ok rec)
    (hs : env.syncResult = .ok ())
    (hd : env.describeResult = .ok addrs)
    (hsome : ∀ a ∈ addrs, (a.allocation_id).isSome = true)
    (hmem : (some rec.allocation_id) ∈ addrs.map Address.allocation_id) :
    (execute opts env).outcome = .ok ∧
    associateCalls (execute opts env) = [] ∧
    (∀ addrs2 : List Address,
        addrs2.map Address.allocation_id = addrs.map Address.allocation_id →
        execute opts { env with describeResult := .ok addrs2 } = execute opts env) := by
  have ho := obtainEip_of_fileExists_ok opts env rec hfe hl
  have hrun := execute_of_sync_ok opts env iid rec [] hc hf ho hs
  have hrec := reconcile_of_found env iid rec addrs hd hsome hmem
  refine ⟨?_, ?_, ?_⟩
  · simp [hrun, hrec]
  · simp [hrun, hrec, associateCalls, List.filter_append, sleep_no_associate,
      isAssociateEvent]
  · intro addrs2 hmap
    have hemp : addrs2.isEmpty = addrs.isEmpty := by
      cases addrs2 <;> cases addrs <;> simp_all
    have hsf : ∀ own, scanFound addrs2 own = scanFound addrs own := by
      intro own
      rw [scanFound_eq_scanIds, scanFound_eq_scanIds, hmap]
    calc execute opts { env with describeResult := .ok addrs2 }
        = execute opts { env with describeResult := .ok addrs } :=
          execute_describe_congr opts env addrs2 addrs hemp hsf
      _ = execute opts env := by rw [env_set_describe_self env addrs hd]

/-- Claim C4: when the lookup reply is empty and a valid own record is in
hand (loaded or freshly allocated), the run issues exactly one associate
call, and that call carries the own record's allocation id and the
resolved instance identity — whatever the associate call then returns. -/
theorem execute_empty_lookup_associates_once (opts : Flags) (env : Env)
    (iid : String) (rec : Eip) (evs : List Event)
    (hc : env.loadConfigResult = .ok ())
    (hf : env.fetchInstanceIdResult = .ok iid)
    (ho : obtainEip opts env = (.ok rec, evs))
    (hs : env.syncResult = .ok ())
    (hd : env.describeResult = .ok []) :
    associateCalls (execute opts env) = [Event.associate rec.allocation_id iid] := by
  have hrec := reconcile_of_empty env iid rec hd
  have hna : evs.filter isAssociateEvent = [] := by
    have h := obtain_no_associate opts env
    rw [ho] at h
    exact h
  rw [execute_of_sync_ok opts env iid rec evs hc hf ho hs]
  simp [associateCalls, List.filter_append, sleep_no_associate, hna, hrec,
    isAssociateEvent]

/-- Claim C5: when the local record file exists but its content does not
parse, the run fails with the load error and issues zero allocator calls —
and indeed no further external call at all: corrupt local state never
triggers re-allocation. -/
theorem execute_corrupt_record_is_fatal (opts : Flags) (env : Env)
    (iid e : String)
    (hc : env.loadConfigResult = .ok ())
    (hf : env.fetchInstanceIdResult = .ok iid)
    (hfe : env.fileExists = true)
    (hl : env.loadResult = .error e) :
    (execute opts env).outcome = .err ("failed ec2::Eip::load " ++ e) ∧
    allocateCalls (execute opts env) = [] ∧
    persistCalls (execute opts env) = [] ∧
    describeCalls (execute opts env) = [] ∧
    associateCalls (execute opts env) = [] ∧
    (execute opts env).written = none := by
  have ho : obtainEip opts env = (.error ("failed ec2::Eip::load " ++ e), []) := by
    simp [obtainEip, hfe, hl]
  rw [execute_of_obtain_error opts env iid ("failed ec2::Eip::load " ++ e) [] hc hf ho]
  refine ⟨rfl, ?_, ?_, ?_, ?_, rfl⟩ <;>
    simp [allocateCalls, persistCalls, describeCalls, associateCalls,
      List.filter_append, sleep_no_allocate, sleep_no_persist, sleep_no_describe,
      sleep_no_associate]

/-- Claim C6: whenever a record is in hand — loaded or freshly allocated —
the run issues the persist (sync) call unconditionally, exactly once, and
strictly before the association lookup and the associate call; when the
sync succeeds, the record is durably written whatever happens to the
association afterwards. -/
theorem execute_persist_unconditional_before_lookup (opts : Flags) (env : Env)
    (iid : String) (rec : Eip) (evs : List Event)
    (hc : env.loadConfigResult = .ok ())
    (hf : env.fetchInstanceIdResult = .ok iid)
    (ho : obtainEip opts env = (.ok rec, evs)) :
    (∃ pre post, (execute opts env).events
        = pre ++ Event.persist opts.mounted_eip_file_path rec :: post ∧
        ∀ ev ∈ pre, isDescribeEvent ev = false ∧ isAssociateEvent ev = false) ∧
    persistCalls (execute opts env) = [Event.persist opts.mounted_eip_file_path rec] ∧
    (env.syncResult = .ok () → (execute opts env).written = some rec) := by
  have hpre : ∀ ev ∈ sleepEvents opts env ++ evs,
      isDescribeEvent ev = false ∧ isAssociateEvent ev = false := by
    intro ev hev
    rcases List.mem_append.mp hev with h | h
    · rw [mem_sleepEvents opts env ev h]
      exact ⟨rfl, rfl⟩
    · have h2 : ev ∈ (obtainEip opts env).2 := by
        rw [ho]
        exact h
      rw [mem_obtainEip_snd opts env ev h2]
      exact ⟨rfl, rfl⟩
  have hnp : evs.filter isPersistEvent = [] := by
    have h := obtain_no_persist opts env
    rw [ho] at h
    exact h
  cases hs : env.syncResult with
  | error e =>
      rw [execute_of_sync_error opts env iid e rec evs hc hf ho hs]
      refine ⟨⟨sleepEvents opts env ++ evs, [], by simp, hpre⟩, ?_, ?_⟩
      · simp [persistCalls, List.filter_append, sleep_no_persist, hnp, isPersistEvent]
      · intro h
        simp at h
  | ok u2 =>
      cases u2
      rw [execute_of_sync_ok opts env iid rec evs hc hf ho hs]
      refine ⟨⟨sleepEvents opts env ++ evs, (reconcile env iid rec).2, by simp, hpre⟩,
        ?_, fun _ => rfl⟩
      simp [persistCalls, List.filter_append, sleep_no_persist, hnp,
        reconcile_no_persist, isPersistEvent]

/-- Claim C7: every step failure is terminal for the run: the run returns
that step's error at once, performs none of the later calls, and retries
nothing — each kind of external call is issued at most once, and a failed
describe or associate call leaves its retryable hint only inside the error
message. -/
theorem execute_failures_are_terminal (opts : Flags) (env : Env) :
    (allocateCalls (execute opts env)).length ≤ 1 ∧
    (persistCalls (execute opts env)).length ≤ 1 ∧
    (describeCalls (execute opts env)).length ≤ 1 ∧
    (associateCalls (execute opts env)).length ≤ 1 ∧
    (∀ e, env.loadConfigResult = .error e →
        execute opts env = { outcome := .err e, events := [], written := none }) ∧
    (∀ e, env.loadConfigResult = .ok () → env.fetchInstanceIdResult = .error e →
        execute opts env = { outcome := .err ("failed fetch_instance_id " ++ e),
                             events := [], written := none }) ∧
    (∀ iid e evs, env.loadConfigResult = .ok () →
        env.fetchInstanceIdResult = .ok iid →
        obtainEip opts env = (.error e, evs) →
        (execute opts env).outcome = .err e ∧
        persistCalls (execute opts env) = [] ∧
        describeCalls (execute opts env) = [] ∧
        associateCalls (execute opts env) = [] ∧
        (execute opts env).written = none) ∧
    (∀ iid rec evs e, env.loadConfigResult = .ok () →
        env.fetchInstanceIdResult = .ok iid →
        obtainEip opts env = (.ok rec, evs) → env.syncResult = .error e →
        (execute opts env).outcome = .err e ∧
        describeCalls (execute opts env) = [] ∧
        associateCalls (execute opts env) = [] ∧
        (execute opts env).written = none) ∧
    (∀ e i, env.describeResult = .error e →
        Event.describe i ∈ (execute opts env).events →
        (execute opts env).outcome =
          .err ("failed ec2_manager.describe_eips_by_instance_id " ++ e.message
                 ++ " (retryable " ++ toString e.is_retryable ++ ")") ∧
        associateCalls (execute opts env) = []) ∧
    (∀ e a i, env.associateResult = .error e →
        Event.associate a i ∈ (execute opts env).events →
        (execute opts env).outcome =
          .err ("failed ec2_manager.associate_eip " ++ e.message
                 ++ " (retryable " ++ toString e.is_retryable ++ ")")) := by
  obtain ⟨c1, c2, c3, c4⟩ := execute_call_counts opts env
  refine ⟨c1, c2, c3, c4, ?_, ?_, ?_, ?_, ?_, ?_⟩
  · intro e hc
    exact execute_of_config_error opts env e hc
  · intro e hc hf
    exact execute_of_fetch_error opts env e hc hf
  · intro iid e evs hc hf ho
    have hnp : evs.filter isPersistEvent = [] := by
      have h := obtain_no_persist opts env; rw [ho] at h; exact h
    have hnd : evs.filter isDescribeEvent = [] := by
      have h := obtain_no_describe opts env; rw [ho] at h; exact h
    have hna : evs.filter isAssociateEvent = [] := by
      have h := obtain_no_associate opts env; rw [ho] at h; exact h
    rw [execute_of_obtain_error opts env iid e evs hc hf ho]
    refine ⟨rfl, ?_, ?_, ?_, rfl⟩ <;>
      simp [persistCalls, describeCalls, associateCalls, List.filter_append,
        sleep_no_persist, sleep_no_describe, sleep_no_associate, hnp, hnd, hna]
  · intro iid rec evs e hc hf ho hs
    have hnd : evs.filter isDescribeEvent = [] := by
      have h := obtain_no_describe opts env; rw [ho] at h; exact h
    have hna : evs.filter isAssociateEvent = [] := by
      have h := obtain_no_associate opts env; rw [ho] at h; exact h
    rw [execute_of_sync_error opts env iid e rec evs hc hf ho hs]
    refine ⟨rfl, ?_, ?_, rfl⟩ <;>
      simp [describeCalls, associateCalls, List.filter_append,
        sleep_no_describe, sleep_no_associate, hnd, hna,
        isDescribeEvent, isAssociateEvent]
  · intro e i hd hmemev
    cases hc : env.loadConfigResult with
    | error e2 =>
        rw [execute_of_config_error opts env e2 hc] at hmemev
        simp at hmemev
    | ok u =>
      cases u
      cases hf : env.fetchInstanceIdResult with
      | error e2 =>
          rw [execute_of_fetch_error opts env e2 hc hf] at hmemev
          simp at hmemev
      | ok iid =>
        rcases ho : obtainEip opts env with ⟨res, evs⟩
        have hmo : ∀ ev ∈ evs, ev = allocateEvent opts := fun ev h =>
          mem_obtainEip_snd opts env ev (by rw [ho]; exact h)
        cases res with
        | error e2 =>
            rw [execute_of_obtain_error opts env iid e2 evs hc hf ho] at hmemev
            exfalso
            rcases List.mem_append.mp hmemev with h | h
            · have h3 := mem_sleepEvents opts env _ h
              simp at h3
            · have h3 := hmo _ h
              simp [allocateEvent] at h3
        | ok rec =>
          cases hsy : env.syncResult with
          | error e2 =>
              rw [execute_of_sync_error opts env iid e2 rec evs hc hf ho hsy] at hmemev
              exfalso
              rcases List.mem_append.mp hmemev with h | h
              · rcases List.mem_append.mp h with h2 | h2
                · have h3 := mem_sleepEvents opts env _ h2
                  simp at h3
                · have h3 := hmo _ h2
                  simp [allocateEvent] at h3
              · simp at h
          | ok u2 =>
              cases u2
              have hrc := reconcile_of_describe_error env iid rec e hd
              have hna : evs.filter isAssociateEvent = [] := by
                have h := obtain_no_associate opts env; rw [ho] at h; exact h
              rw [execute_of_sync_ok opts env iid rec evs hc hf ho hsy]
              constructor
              · simp [hrc]
              · simp [associateCalls, List.filter_append, sleep_no_associate,
                  hna, hrc, isAssociateEvent]
  · intro e a i hassoc hmemev
    cases hc : env.loadConfigResult with
    | error e2 =>
        rw [execute_of_config_error opts env e2 hc] at hmemev
        simp at hmemev
    | ok u =>
      cases u
      cases hf : env.fetchInstanceIdResult with
      | error e2 =>
          rw [execute_of_fetch_error opts env e2 hc hf] at hmemev
          simp at hmemev
      | ok iid =>
        rcases ho : obtainEip opts env with ⟨res, evs⟩
        have hmo : ∀ ev ∈ evs, ev = allocateEvent opts := fun ev h =>
          mem_obtainEip_snd opts env ev (by rw [ho]; exact h)
        cases res with
        | error e2 =>
            rw [execute_of_obtain_error opts env iid e2 evs hc hf ho] at hmemev
            exfalso
            rcases List.mem_append.mp hmemev with h | h
            · have h3 := mem_sleepEvents opts env _ h
              simp at h3
            · have h3 := hmo _ h
              simp [allocateEvent] at h3
        | ok rec =>
          cases hsy : env.syncResult with
          | error e2 =>
              rw [execute_of_sync_error opts env iid e2 rec evs hc hf ho hsy] at hmemev
              exfalso
              rcases List.mem_append.mp hmemev with h | h
              · rcases List.mem_append.mp h with h2 | h2
                · have h3 := mem_sleepEvents opts env _ h2
                  simp at h3
                · have h3 := hmo _ h2
                  simp [allocateEvent] at h3
              · simp at h
          | ok u2 =>
              cases u2
              rw [execute_of_sync_ok opts env iid rec evs hc hf ho hsy] at hmemev ⊢
              have hmr : Event.associate a i ∈ (reconcile env iid rec).2 := by
                rcases List.mem_append.mp hmemev with h | h
                · exfalso
                  rcases List.mem_append.mp h with h2 | h2
                  · rcases List.mem_append.mp h2 with h3 | h3
                    · have h4 := mem_sleepEvents opts env _ h3
                      simp at h4
                    · have h4 := hmo _ h3
                      simp [allocateEvent] at h4
                  · simp at h2
                · exact h
              simpa using reconcile_assoc_error env iid rec e a i hassoc hmr

/-- Claim C8: with configured maximum jitter 0 the run issues no sleep
call at all; with a positive maximum the drawn duration is the random
value modulo the maximum — hence always strictly below the maximum, every
value in that range being reachable — and every sleep call the run makes
carries that duration. -/
theorem execute_jitter_bound (opts : Flags) (env : Env) (iid : String)
    (hc : env.loadConfigResult = .ok ())
    (hf : env.fetchInstanceIdResult = .ok iid) :
    (opts.initial_wait_random_seconds = 0 → sleepCalls (execute opts env) = []) ∧
    (0 < opts.initial_wait_random_seconds →
        env.randomU32 % opts.initial_wait_random_seconds
            < opts.initial_wait_random_seconds ∧
        sleepCalls (execute opts env) =
          (if 0 < env.randomU32 % opts.initial_wait_random_seconds
           then [Event.sleep (env.randomU32 % opts.initial_wait_random_seconds)]
           else []) ∧
        (∀ s, Event.sleep s ∈ (execute opts env).events →
            s = env.randomU32 % opts.initial_wait_random_seconds ∧
            s < opts.initial_wait_random_seconds) ∧
        (∀ k, k < opts.initial_wait_random_seconds →
            ∃ r : Nat, r % opts.initial_wait_random_seconds = k)) := by
  have hsc := execute_sleepCalls opts env iid hc hf
  constructor
  · intro h0
    rw [hsc, sleepEvents_of_zero opts env h0]
  · intro hpos
    have hlt : env.randomU32 % opts.initial_wait_random_seconds
        < opts.initial_wait_random_seconds := Nat.mod_lt _ hpos
    refine ⟨hlt, ?_, ?_, ?_⟩
    · rw [hsc, sleepEvents_of_pos opts env hpos]
    · intro s hmem
      have hin : Event.sleep s ∈ sleepCalls (execute opts env) :=
        List.mem_filter.mpr ⟨hmem, rfl⟩
      rw [hsc] at hin
      have h2 := mem_sleepEvents opts env _ hin
      have hval : s = env.randomU32 % opts.initial_wait_random_seconds := by
        simpa using h2
      exact ⟨hval, hval ▸ hlt⟩
    · intro k hk
      exact ⟨k, Nat.mod_eq_of_lt hk⟩

/-- Claim C9: the scan unwraps each inspected entry's allocation id, so an
entry with an absent allocation id inspected before any matching entry
makes the run panic rather than return a reported error; and under the
precondition that every entry of the lookup result carries an allocation
id, the panic branch is unreachable. -/
theorem execute_missing_allocation_id_panics :
    (∀ (opts : Flags) (env : Env) (iid : String) (rec : Eip) (evs : List Event)
        (pre rest : List Address) (bad : Address),
        env.loadConfigResult = .ok () →
        env.fetchInstanceIdResult = .ok iid →
        obtainEip opts env = (.ok rec, evs) →
        env.syncResult = .ok () →
        env.describeResult = .ok (pre ++ bad :: rest) →
        bad.allocation_id = none →
        (∀ b ∈ pre, ∃ s, b.allocation_id = some s ∧ s ≠ rec.allocation_id) →
        (execute opts env).outcome = .panicked "called Option unwrap on a None value" ∧
        ∀ m, (execute opts env).outcome ≠ .err m) ∧
    (∀ (opts : Flags) (env : Env),
        (∀ l, env.describeResult = .ok l → ∀ a ∈ l, (a.allocation_id).isSome = true) →
        ∀ m, (execute opts env).outcome ≠ .panicked m) := by
  constructor
  · intro opts env iid rec evs pre rest bad hc hf ho hsy hd hbad hpre
    have hsf := scanFound_append_none pre rest bad rec.allocation_id hbad hpre
    have hne : pre ++ bad :: rest ≠ [] := by simp
    have hrec := reconcile_of_scan_none env iid rec (pre ++ bad :: rest) hd hne hsf
    rw [execute_of_sync_ok opts env iid rec evs hc hf ho hsy]
    constructor
    · simp [hrec]
    · intro m
      simp [hrec]
  · intro opts env hwf m
    cases hc : env.loadConfigResult with
    | error e =>
        rw [execute_of_config_error opts env e hc]
        simp
    | ok u =>
      cases u
      cases hf : env.fetchInstanceIdResult with
      | error e =>
          rw [execute_of_fetch_error opts env e hc hf]
          simp
      | ok iid =>
        rcases ho : obtainEip opts env with ⟨res, evs⟩
        cases res with
        | error e =>
            rw [execute_of_obtain_error opts env iid e evs hc hf ho]
            simp
        | ok rec =>
          cases hsy : env.syncResult with
          | error e =>
              rw [execute_of_sync_error opts env iid e rec evs hc hf ho hsy]
              simp
          | ok u2 =>
              cases u2
              rw [execute_of_sync_ok opts env iid rec evs hc hf ho hsy]
              exact reconcile_no_panic env iid rec hwf m

/-- Claim C10: under the precondition that every entry of the lookup
result carries an allocation id, the whole run — in particular whether an
associate call is issued — depends on the lookup result only through
whether some entry's allocation id equals the own record's: two replies
with the same allocation-id membership (permutations, duplications) give
identical runs, and the associate call is issued exactly when the own
record's allocation id is absent from the reply. -/
theorem execute_decision_depends_only_on_membership (opts : Flags) (env : Env)
    (l₁ l₂ : List Address)
    (h₁ : ∀ a ∈ l₁, (a.allocation_id).isSome = true)
    (h₂ : ∀ a ∈ l₂, (a.allocation_id).isSome = true)
    (hm : ∀ s : String, (some s) ∈ l₁.map Address.allocation_id ↔
        (some s) ∈ l₂.map Address.allocation_id) :
    execute opts { env with describeResult := .ok l₁ } =
      execute opts { env with describeResult := .ok l₂ } ∧
    (∀ iid rec evs, env.loadConfigResult = .ok () →
        env.fetchInstanceIdResult = .ok iid →
        obtainEip opts env = (.ok rec, evs) → env.syncResult = .ok () →
        (associateCalls (execute opts { env with describeResult := .ok l₁ }) ≠ [] ↔
         (some rec.allocation_id) ∉ l₁.map Address.allocation_id)) := by
  have hnonnil : ∀ (l : List Address), (∀ a ∈ l, (a.allocation_id).isSome = true) →
      l ≠ [] → ∃ s, (some s) ∈ l.map Address.allocation_id := by
    intro l hl hne
    cases l with
    | nil => exact absurd rfl hne
    | cons b rest =>
        obtain ⟨s, hs⟩ := Option.isSome_iff_exists.mp (hl b (List.mem_cons_self b rest))
        exact ⟨s, List.mem_map.mpr ⟨b, List.mem_cons_self b rest, hs⟩⟩
  have hemp : l₁.isEmpty = l₂.isEmpty := by
    by_cases e1 : l₁ = [] <;> by_cases e2 : l₂ = []
    · rw [e1, e2]
    · exfalso
      obtain ⟨s, hs⟩ := hnonnil l₂ h₂ e2
      have h3 := (hm s).mpr hs
      rw [e1] at h3
      simp at h3
    · exfalso
      obtain ⟨s, hs⟩ := hnonnil l₁ h₁ e1
      have h3 := (hm s).mp hs
      rw [e2] at h3
      simp at h3
    · cases l₁ with
      | nil => exact absurd rfl e1
      | cons b1 r1 =>
        cases l₂ with
        | nil => exact absurd rfl e2
        | cons b2 r2 => rfl
  have hsf : ∀ own, scanFound l₁ own = scanFound l₂ own := by
    intro own
    rw [scanFound_eq_decide_mem l₁ own h₁, scanFound_eq_decide_mem l₂ own h₂]
    exact congrArg some (decide_eq_decide.mpr (hm own))
  refine ⟨execute_describe_congr opts env l₁ l₂ hemp hsf, ?_⟩
  intro iid rec evs hc hf ho hs
  have ho1 : obtainEip opts { env with describeResult := .ok l₁ } = (.ok rec, evs) := by
    rw [obtainEip_set_describe]
    exact ho
  have hrun := execute_of_sync_ok opts { env with describeResult := .ok l₁ } iid rec evs
    hc hf ho1 hs
  have hna : evs.filter isAssociateEvent = [] := by
    have h := obtain_no_associate opts { env with describeResult := .ok l₁ }
    rw [ho1] at h
    exact h
  have hiff := reconcile_assoc_ne_iff { env with describeResult := .ok l₁ } iid rec l₁
    rfl h₁
  rw [hrun]
  have hfilter : associateCalls
      { outcome := (reconcile { env with describeResult := .ok l₁ } iid rec).1,
        events := sleepEvents opts { env with describeResult := .ok l₁ } ++ evs
          ++ [Event.persist opts.mounted_eip_file_path rec]
          ++ (reconcile { env with describeResult := .ok l₁ } iid rec).2,
        written := some rec } =
      ((reconcile { env with describeResult := .ok l₁ } iid rec).2).filter
        isAssociateEvent := by
    simp [associateCalls, List.filter_append, sleep_no_associate, hna, isAssociateEvent]
  rw [hfilter]
  exact hiff

/-! ### Concrete witnesses -/

/-- Flags as in the command's own usage example. -/
def optsW : Flags :=
  ⟨"info", 5, "Id", "TEST-ID", "Kind", "aws-ip-provisioner", "/data/eip.yaml"⟩

/-- A concrete EIP record. -/
def eipW : Eip := ⟨"eipalloc-0123", "203.0.113.7"⟩

/-- A describe entry matching the record. -/
def addrW : Address := ⟨some "eipalloc-0123", some "203.0.113.7"⟩

/-- A describe entry with a different allocation id. -/
def addrOtherW : Address := ⟨some "eipalloc-9999", some "198.51.100.2"⟩

/-- A describe entry with the same allocation id but another address. -/
def addrDupW : Address := ⟨some "eipalloc-0123", some "198.51.100.9"⟩

/-- A describe entry with a missing allocation id. -/
def addrNoneW : Address := ⟨none, some "198.51.100.3"⟩

/-- Environment of a healthy second run: record on disk, record already
associated. -/
def envW : Env :=
  ⟨.ok (), .ok "i-0abc", 7, true, .ok eipW, .ok eipW, .ok (), .ok [addrW],
   .ok "eipassoc-1"⟩

/-- Same, with a foreign EIP listed before the own one. -/
def env3W : Env := { envW with describeResult := .ok [addrOtherW, addrW] }

/-- Same, with an empty describe reply. -/
def env4W : Env := { envW with describeResult := .ok [] }

/-- Same, with a record file that does not parse. -/
def env5W : Env := { envW with loadResult := .error "bad yaml" }

/-- Same, with a failing config load. -/
def env7W : Env := { envW with loadConfigResult := .error "no credentials" }

/-- Same, with a describe entry lacking an allocation id. -/
def env9W : Env := { envW with describeResult := .ok [addrNoneW] }

/-- Witness for claim C1 at a concrete healthy second run. -/
theorem execute_second_run_already_associated_witness :
    (execute optsW envW).outcome = .ok ∧
    allocateCalls (execute optsW envW) = [] ∧
    associateCalls (execute optsW envW) = [] ∧
    (execute optsW envW).written = some eipW :=
  execute_second_run_already_associated optsW envW "i-0abc" eipW [addrW]
    rfl rfl rfl rfl rfl rfl (by decide) (by decide)

/-- Witness for claim C2 at a concrete run with an existing record. -/
theorem execute_existing_record_never_allocates_witness :
    allocateCalls (execute optsW envW) = [] :=
  execute_existing_record_never_allocates optsW envW rfl

/-- Witness for claim C3 at a reply listing a foreign EIP first. -/
theorem execute_reconcile_matches_by_allocation_id_witness :
    (execute optsW env3W).outcome = .ok ∧
    associateCalls (execute optsW env3W) = [] ∧
    (∀ addrs2 : List Address,
        addrs2.map Address.allocation_id = ([addrOtherW, addrW]).map Address.allocation_id →
        execute optsW { env3W with describeResult := .ok addrs2 } = execute optsW env3W) :=
  execute_reconcile_matches_by_allocation_id optsW env3W "i-0abc" eipW
    [addrOtherW, addrW] rfl rfl rfl rfl rfl rfl (by decide) (by decide)

/-- Witness for claim C4 at an empty describe reply. -/
theorem execute_empty_lookup_associates_once_witness :
    associateCalls (execute optsW env4W) = [Event.associate "eipalloc-0123" "i-0abc"] :=
  execute_empty_lookup_associates_once optsW env4W "i-0abc" eipW []
    rfl rfl rfl rfl rfl

/-- Witness for claim C5 at an unparsable record file. -/
theorem execute_corrupt_record_is_fatal_witness :
    (execute optsW env5W).outcome = .err ("failed ec2::Eip::load " ++ "bad yaml") ∧
    allocateCalls (execute optsW env5W) = [] ∧
    persistCalls (execute optsW env5W) = [] ∧
    describeCalls (execute optsW env5W) = [] ∧
    associateCalls (execute optsW env5W) = [] ∧
    (execute optsW env5W).written = none :=
  execute_corrupt_record_is_fatal optsW env5W "i-0abc" "bad yaml" rfl rfl rfl rfl

/-- Witness for claim C6 at a concrete healthy run. -/
theorem execute_persist_unconditional_before_lookup_witness :
    (∃ pre post, (execute optsW envW).events
        = pre ++ Event.persist optsW.mounted_eip_file_path eipW :: post ∧
        ∀ ev ∈ pre, isDescribeEvent ev = false ∧ isAssociateEvent ev = false) ∧
    persistCalls (execute optsW envW) = [Event.persist optsW.mounted_eip_file_path eipW] ∧
    (envW.syncResult = .ok () → (execute optsW envW).written = some eipW) :=
  execute_persist_unconditional_before_lookup optsW envW "i-0abc" eipW [] rfl rfl rfl

/-- Witness for claim C7 at a failing config load. -/
theorem execute_failures_are_terminal_witness :
    execute optsW env7W = { outcome := .err "no credentials", events := [], written := none } ∧
    (allocateCalls (execute optsW env7W)).length ≤ 1 := by
  have h := execute_failures_are_terminal optsW env7W
  exact ⟨h.2.2.2.2.1 "no credentials" rfl, h.1⟩

/-- Witness for claim C8: with maximum 5 and random value 7, the run
sleeps exactly 7 mod 5 = 2 seconds. -/
theorem execute_jitter_bound_witness :
    envW.randomU32 % optsW.initial_wait_random_seconds
        < optsW.initial_wait_random_seconds ∧
    sleepCalls (execute optsW envW) = [Event.sleep 2] := by
  have h := execute_jitter_bound optsW envW "i-0abc" rfl rfl
  have h2 := h.2 (by decide)
  refine ⟨h2.1, ?_⟩
  rw [h2.2.1]
  rfl

/-- Witness for claim C9: a reply whose only entry lacks an allocation id
makes the concrete run panic. -/
theorem execute_missing_allocation_id_panics_witness :
    (execute optsW env9W).outcome = .panicked "called Option unwrap on a None value" :=
  (execute_missing_allocation_id_panics.1 optsW env9W "i-0abc" eipW [] [] [] addrNoneW
    rfl rfl rfl rfl rfl rfl (by simp)).1

/-- Witness for claim C10: duplicating the matching entry (with another
address value) leaves the concrete run unchanged. -/
theorem execute_decision_depends_only_on_membership_witness :
    execute optsW { envW with describeResult := .ok [addrW] } =
      execute optsW { envW with describeResult := .ok [addrDupW, addrW] } :=
  (execute_decision_depends_only_on_membership optsW envW [addrW] [addrDupW, addrW]
    (by decide) (by decide) (by intro s; simp [addrW, addrDupW])).1

end AwsIpProvisioner
